import Mathlib

/-!
Verification of the newsletter subsystem of the mkyang-site repository.

The development shallowly embeds the three serverless handlers
(src/api/send-newsletter.js, src/api/subscribe.js, src/api/unsubscribe.js)
and the blog-index metadata parser (scripts/build-blog.js). External
services (the document store, the delivery service, the page fetch) are
modelled as explicit response values passed to the handler functions;
network side effects (delivery calls, pauses, status updates, inserts)
are recorded as counters and flags in the result structures. Machine
strings are modelled as Lean String with character-list operations so
that every definition reduces in the kernel. The HMAC-SHA256 used by the
unsubscribe-token scheme is implemented concretely over Nat (the
implementation reproduces the standard SHA-256 and HMAC test vectors,
checked below).

Known modelling notes, each marked at its definition:
- JavaScript whitespace (regex class \s and String.trim) is modelled by
  the six ASCII whitespace characters; the Unicode extras are immaterial
  to the claims checked here.
- toLowerCase is modelled on ASCII letters.
- URL assembly and percent-encoding of the unsubscribe link are
  abstracted: the link is modelled as the (email, token) query-parameter
  pair it carries.
-/

/- ── JavaScript-style helpers ──────────────────────────────────────── -/

/-- Truthiness of an optional string: absent and empty are falsy. -/
def jsTruthy : Option String → Bool
  | none => false
  | some s => s ≠ ""

/-- The pattern (m || d) on an optional string field: absent or empty
falls back to the default. Used for (err.message || two defaults). -/
def jsOrElse (m : Option String) (dflt : String) : String :=
  match m with
  | none => dflt
  | some s => if s = "" then dflt else s

/-- ASCII whitespace, modelling the JavaScript regex class \s and the
characters trimmed by String.prototype.trim (Unicode spaces omitted). -/
def isJsWs (c : Char) : Bool :=
  c = ' ' || c = '\t' || c = '\n' || c = '\r' || c = Char.ofNat 11 || c = Char.ofNat 12

/-- Strip leading and trailing whitespace from a character list. -/
def trimChars (l : List Char) : List Char :=
  ((l.dropWhile isJsWs).reverse.dropWhile isJsWs).reverse

/-- Model of String.prototype.trim. -/
def jsTrim (s : String) : String := String.mk (trimChars s.toList)

/-- ASCII lowering of one character (model of toLowerCase on the ASCII
range, which covers every input these handlers compare). -/
def lowerChar (c : Char) : Char :=
  if 'A' ≤ c && c ≤ 'Z' then Char.ofNat (c.toNat + 32) else c

/-- Model of String.prototype.toLowerCase. -/
def jsToLower (s : String) : String := String.mk (s.toList.map lowerChar)

/-- The normalization rawEmail.trim().toLowerCase() used by both the
subscribe handler (subscribe.js line 42) and the unsubscribe handler
(unsubscribe.js line 19). -/
def normalizeEmail (s : String) : String := jsToLower (jsTrim s)

/-- Split a character list on a separator, keeping empty segments, as
String.prototype.split does. -/
def splitOnChar (sep : Char) : List Char → List (List Char)
  | [] => [[]]
  | c :: cs =>
    let r := splitOnChar sep cs
    if c = sep then [] :: r
    else
      match r with
      | [] => [[c]]
      | h :: t => (c :: h) :: t

/-- First n characters of a string, as the slice (0, n). -/
def strTake (n : Nat) (s : String) : String := String.mk (s.toList.take n)

/-- The email-shape test of the regex from subscribe.js line 43 and
unsubscribe.js line 20: one or more non-space non-at characters, an at
sign, then a domain that contains a dot with at least one non-space
non-at character on each side. The backtracking regex matches exactly
when such a decomposition exists, which is what this test decides. -/
def emailRegexTest (s : String) : Bool :=
  match splitOnChar '@' s.toList with
  | [lp, dp] =>
    lp ≠ [] && lp.all (fun c => !(isJsWs c)) &&
    dp.all (fun c => !(isJsWs c)) &&
    ((dp.drop 1).dropLast.contains '.')
  | _ => false

/-- The combined validity check applied to a normalized email: length at
most 254 and the shape regex (subscribe.js line 43, unsubscribe.js
line 20). -/
def validEmail (s : String) : Bool :=
  decide (s.toList.length ≤ 254) && emailRegexTest s

/- ── SHA-256 and HMAC-SHA256 over Nat ──────────────────────────────────
The unsubscribe-token scheme calls createHmac(sha256, secret) from the
node crypto library (send-newsletter.js lines 25 and 26, unsubscribe.js
lines 27 and 28). The library primitive is embedded concretely so that
token values are computable in the kernel. -/

/-- Reduce to a 32-bit word. -/
def w32 (n : Nat) : Nat := n % 4294967296

/-- Right rotation of a 32-bit word. -/
def rotr32 (n x : Nat) : Nat := w32 ((x >>> n) ||| (x <<< (32 - n)))

/-- The 64 SHA-256 round constants. -/
def sha256K : List Nat :=
  [1116352408, 1899447441, 3049323471, 3921009573, 961987163, 1508970993,
   2453635748, 2870763221, 3624381080, 310598401, 607225278, 1426881987,
   1925078388, 2162078206, 2614888103, 3248222580, 3835390401, 4022224774,
   264347078, 604807628, 770255983, 1249150122, 1555081692, 1996064986,
   2554220882, 2821834349, 2952996808, 3210313671, 3336571891, 3584528711,
   113926993, 338241895, 666307205, 773529912, 1294757372, 1396182291,
   1695183700, 1986661051, 2177026350, 2456956037, 2730485921, 2820302411,
   3259730800, 3345764771, 3516065817, 3600352804, 4094571909, 275423344,
   430227734, 506948616, 659060556, 883997877, 958139571, 1322822218,
   1537002063, 1747873779, 1955562222, 2024104815, 2227730452, 2361852424,
   2428436474, 2756734187, 3204031479, 3329325298]

/-- The eight 32-bit working registers of the SHA-256 state. -/
structure Sha256State where
  a : Nat
  b : Nat
  c : Nat
  d : Nat
  e : Nat
  f : Nat
  g : Nat
  h : Nat

/-- The SHA-256 initial hash state. -/
def sha256H0 : Sha256State :=
  ⟨1779033703, 3144134277, 1013904242, 2773480762,
   1359893119, 2600822924, 528734635, 1541459225⟩

/-- The state registers in order, for the final serialization. -/
def stateWords (st : Sha256State) : List Nat :=
  [st.a, st.b, st.c, st.d, st.e, st.f, st.g, st.h]

/-- Big-endian 4-byte groups to 32-bit words. -/
def bytesToWords : List Nat → List Nat
  | b0 :: b1 :: b2 :: b3 :: rest =>
    ((((b0 <<< 8) ||| b1) <<< 8 ||| b2) <<< 8 ||| b3) :: bytesToWords rest
  | _ => []

/-- Extend the 16-word block to the 64-entry message schedule. -/
def extendSchedule (ws : List Nat) : Nat → List Nat
  | 0 => ws
  | n + 1 =>
    let i := ws.length
    let g := fun j => ws.getD (i - j) 0
    let s0 := (rotr32 7 (g 15)) ^^^ (rotr32 18 (g 15)) ^^^ ((g 15) >>> 3)
    let s1 := (rotr32 17 (g 2)) ^^^ (rotr32 19 (g 2)) ^^^ ((g 2) >>> 10)
    extendSchedule (ws ++ [w32 (g 16 + s0 + g 7 + s1)]) n

/-- The SHA-256 compression rounds, one per constant-and-schedule pair. -/
def rounds : Sha256State → List Nat → List Nat → Sha256State
  | st, k :: ks, w :: wws =>
    let s1 := (rotr32 6 st.e) ^^^ (rotr32 11 st.e) ^^^ (rotr32 25 st.e)
    let ch := (st.e &&& st.f) ^^^ ((st.e ^^^ 4294967295) &&& st.g)
    let t1 := w32 (st.h + s1 + ch + k + w)
    let s0 := (rotr32 2 st.a) ^^^ (rotr32 13 st.a) ^^^ (rotr32 22 st.a)
    let mj := (st.a &&& st.b) ^^^ (st.a &&& st.c) ^^^ (st.b &&& st.c)
    let t2 := w32 (s0 + mj)
    rounds ⟨w32 (t1 + t2), st.a, st.b, st.c, w32 (st.d + t1), st.e, st.f, st.g⟩ ks wws
  | st, _, _ => st

/-- One SHA-256 compression of a 64-byte block into the hash state. -/
def compress (h : Sha256State) (block : List Nat) : Sha256State :=
  let ws := extendSchedule (bytesToWords block) 48
  let st := rounds h sha256K ws
  ⟨w32 (h.a + st.a), w32 (h.b + st.b), w32 (h.c + st.c), w32 (h.d + st.d),
   w32 (h.e + st.e), w32 (h.f + st.f), w32 (h.g + st.g), w32 (h.h + st.h)⟩

/-- Split into 64-byte chunks; the fuel equals the list length, which
keeps the recursion structural so the kernel can evaluate it. -/
def chunks64F : Nat → List Nat → List (List Nat)
  | 0, _ => []
  | _, [] => []
  | fuel + 1, l => l.take 64 :: chunks64F fuel (l.drop 64)

/-- Split a byte list into 64-byte chunks. -/
def chunks64 (l : List Nat) : List (List Nat) := chunks64F l.length l

/-- SHA-256 message padding: a one bit, zeros, and the 64-bit big-endian
bit length, to a multiple of 64 bytes. -/
def padMessage (msg : List Nat) : List Nat :=
  let len := msg.length
  let bitLen := len * 8
  let zeros := (64 - ((len + 9) % 64)) % 64
  msg ++ [0x80] ++ List.replicate zeros 0 ++
    [(bitLen >>> 56) % 256, (bitLen >>> 48) % 256, (bitLen >>> 40) % 256, (bitLen >>> 32) % 256,
     (bitLen >>> 24) % 256, (bitLen >>> 16) % 256, (bitLen >>> 8) % 256, bitLen % 256]

/-- SHA-256 of a byte list, as a 32-byte digest. -/
def sha256Bytes (msg : List Nat) : List Nat :=
  let final := (chunks64 (padMessage msg)).foldl compress sha256H0
  (stateWords final).flatMap
    (fun wd => [(wd >>> 24) % 256, (wd >>> 16) % 256, (wd >>> 8) % 256, wd % 256])

/-- Lowercase hex digit of a value below 16. -/
def hexDigit (n : Nat) : Char :=
  if n < 10 then Char.ofNat (48 + n) else Char.ofNat (87 + n)

/-- Lowercase hex string of a byte list, as digest(hex) produces. -/
def bytesToHex (bs : List Nat) : String :=
  String.mk (bs.flatMap (fun b => [hexDigit (b / 16), hexDigit (b % 16)]))

/-- UTF-8 encoding of one code point. -/
def utf8Char (c : Nat) : List Nat :=
  if c < 0x80 then [c]
  else if c < 0x800 then [0xC0 ||| (c >>> 6), 0x80 ||| (c &&& 0x3F)]
  else if c < 0x10000 then
    [0xE0 ||| (c >>> 12), 0x80 ||| ((c >>> 6) &&& 0x3F), 0x80 ||| (c &&& 0x3F)]
  else
    [0xF0 ||| (c >>> 18), 0x80 ||| ((c >>> 12) &&& 0x3F),
     0x80 ||| ((c >>> 6) &&& 0x3F), 0x80 ||| (c &&& 0x3F)]

/-- UTF-8 encoding of a string, the byte view node crypto hashes. -/
def utf8 (s : String) : List Nat := s.toList.flatMap (fun c => utf8Char c.toNat)

/-- SHA-256 of a string as a lowercase hex digest. -/
def sha256Hex (s : String) : String := bytesToHex (sha256Bytes (utf8 s))

/-- HMAC-SHA256 with string key and message, hex digest, modelling
createHmac(sha256, key).update(msg).digest(hex). -/
def hmacSha256Hex (key msg : String) : String :=
  let k0 := utf8 key
  let k1 := if k0.length > 64 then sha256Bytes k0 else k0
  let k2 := k1 ++ List.replicate (64 - k1.length) 0
  let ipad := k2.map (fun b => b ^^^ 0x36)
  let opad := k2.map (fun b => b ^^^ 0x5c)
  bytesToHex (sha256Bytes (opad ++ sha256Bytes (ipad ++ utf8 msg)))

set_option maxRecDepth 10000 in
/-- Sanity anchor: the implementation reproduces the standard SHA-256
test vector for the string abc. -/
theorem sha256Hex_abc :
    sha256Hex "abc" = "ba7816bf8f01cfea414140de5dae2223b00361a396177a9cb410ff61f20015ad" := by
  decide

/- ── Unsubscribe-token scheme ──────────────────────────────────────── -/

/-- Token issue, from send-newsletter.js lines 25 and 26: the first 16
hex characters of the HMAC-SHA256 of the email exactly as passed in,
under the configured secret. -/
def issueToken (secret email : String) : String :=
  strTake 16 (hmacSha256Hex secret email)

/-- The unsubscribe link as the query-parameter pair it carries, from
send-newsletter.js lines 22 to 30 (URL text and percent-encoding
abstracted; the token query parameter is present exactly when the
UNSUBSCRIBE_SECRET environment value is truthy). -/
structure UnsubLink where
  email : String
  token : Option String
deriving DecidableEq

/-- Model of the unsubscribeUrl helper of send-newsletter.js. -/
def unsubscribeUrl (unsubSecret : Option String) (email : String) : UnsubLink :=
  match unsubSecret with
  | some s => if s ≠ "" then ⟨email, some (issueToken s email)⟩ else ⟨email, none⟩
  | none => ⟨email, none⟩

/-- Token verification, from unsubscribe.js lines 25 to 32: when the
secret is configured (truthy), recompute the token over the supplied
(already normalized) email and require the query token to be truthy and
exactly equal; when no secret is configured, verification is skipped. -/
def verifyToken (unsubSecret : Option String) (email : String) (tokenQ : Option String) : Bool :=
  match unsubSecret with
  | none => true
  | some sec =>
    if sec = "" then true
    else
      match tokenQ with
      | none => false
      | some t => t ≠ "" && t = issueToken sec email

/- ── Unsubscribe handler (src/api/unsubscribe.js) ──────────────────── -/

/-- The directory query response seen by the unsubscribe handler: a
non-success response, or a success carrying the page ids of the
matching records (data.results). -/
inductive SearchResp where
  | svcErr
  | found (results : List String)
deriving DecidableEq

/-- The status-update response (the PATCH of unsubscribe.js line 65). -/
inductive UpdateResp where
  | success
  | failure
deriving DecidableEq

/-- Observable outcome of the unsubscribe handler: HTTP status, the page
message, the success flag of the rendered page, and whether the
status-update write was issued at all. -/
structure UnsubResult where
  status : Nat
  message : String
  successFlag : Bool
  updateCalled : Bool
deriving DecidableEq

/-- The store interaction of unsubscribe.js lines 34 to 87: a failed
search is a 500; an empty result list is the 200 not-subscribed page
with no update written; otherwise the first record is updated and the
outcome follows the update response. -/
def unsubscribeAfterAuth (search : SearchResp) (update : UpdateResp) : UnsubResult :=
  match search with
  | .svcErr => ⟨500, "Something went wrong. Please try again.", false, false⟩
  | .found [] => ⟨200, "This email is not subscribed.", false, false⟩
  | .found (_ :: _) =>
    match update with
    | .success => ⟨200, "You have been unsubscribed. Sorry to see you go.", true, true⟩
    | .failure => ⟨500, "Something went wrong. Please try again.", false, true⟩

/-- Model of the unsubscribe handler (unsubscribe.js lines 10 to 88),
with the environment secret and the two store responses as inputs. -/
def unsubscribeHandler (unsubSecret rawEmail tokenQ : Option String)
    (search : SearchResp) (update : UpdateResp) : UnsubResult :=
  match rawEmail with
  | none => ⟨400, "Missing email parameter.", false, false⟩
  | some raw =>
    if raw = "" then ⟨400, "Missing email parameter.", false, false⟩
    else
      let email := normalizeEmail raw
      if !validEmail email then ⟨400, "Invalid email.", false, false⟩
      else if jsTruthy unsubSecret && !verifyToken unsubSecret email tokenQ then
        ⟨403, "Invalid unsubscribe link.", false, false⟩
      else unsubscribeAfterAuth search update

/- ── Metadata extractor (send-newsletter.js lines 58 to 69 and
      scripts/build-blog.js parseMeta) ─────────────────────────────── -/

/-- Backtracking step shared by the sentinel matcher: starting from the
longest whitespace run (the greedy star), find the largest drop count at
which the literal pattern is a prefix, and return what follows it. -/
def tryDropsDesc (pat : List Char) (l : List Char) : Nat → Option (List Char)
  | 0 => if pat.isPrefixOf l then some (l.drop pat.length) else none
  | k + 1 =>
    let r := l.drop (k + 1)
    if pat.isPrefixOf r then some (r.drop pat.length)
    else tryDropsDesc pat l k

/-- Try to match the block opener at this position: the literal comment
opener, a whitespace run, then the BLOG_META sentinel line. Returns the
characters after the sentinel on success. -/
def matchOpenAt (l : List Char) : Option (List Char) :=
  if ("<!--".toList).isPrefixOf l then
    let r := l.drop 4
    tryDropsDesc ("\nBLOG_META\n".toList) r ((r.takeWhile isJsWs).length)
  else none

/-- Whether the block closer matches at this position: the END_META
sentinel, a whitespace run, then the comment closer. -/
def matchCloseAt (l : List Char) : Bool :=
  if ("\nEND_META".toList).isPrefixOf l then
    let r := l.drop 9
    (tryDropsDesc ("\n-->".toList) r ((r.takeWhile isJsWs).length)).isSome
  else false

/-- Lazily capture the block body: the shortest prefix whose remainder
matches the closer, as the non-greedy capture group does. -/
def takeBody (acc : List Char) : List Char → Option (List Char)
  | [] => none
  | c :: cs => if matchCloseAt (c :: cs) then some acc.reverse else takeBody (c :: acc) cs

/-- Leftmost match of the whole BLOG_META pattern, returning the
captured body. Pathological inputs where the greedy whitespace run
admits several sentinel offsets are not distinguished here. -/
def extractMetaAux : List Char → Option (List Char)
  | [] => none
  | c :: cs =>
    match matchOpenAt (c :: cs) with
    | some afterOpen =>
      (match takeBody [] afterOpen with
       | some body => some body
       | none => extractMetaAux cs)
    | none => extractMetaAux cs

/-- The block-location phase of the metadata extractor: the capture of
the regex of send-newsletter.js line 58 and build-blog.js line 19, or
none when the page has no block. -/
def extractMetaBlock (html : String) : Option String :=
  (extractMetaAux html.toList).map String.mk

/-- Split a string into lines as split over the newline separator. -/
def splitLines (s : String) : List String :=
  (splitOnChar '\n' s.toList).map String.mk

/-- Split a line at its first colon, as indexOf plus the two slices;
none when the line has no colon. -/
def firstColonSplit : List Char → Option (List Char × List Char)
  | [] => none
  | c :: cs =>
    if c = ':' then some ([], cs)
    else
      match firstColonSplit cs with
      | none => none
      | some (a, b) => some (c :: a, b)

/-- Assignment meta[key] = val on the association-list view of the meta
object: replace the value in place, or append a new entry. -/
def metaInsert : List (String × String) → String → String → List (String × String)
  | [], k, v => [(k, v)]
  | (k0, v0) :: rest, k, v =>
    if k0 = k then (k0, v) :: rest else (k0, v0) :: metaInsert rest k v

/-- One iteration of the line loop (send-newsletter.js lines 63 to 69):
skip a line with no colon, trim both sides, skip when either side is
empty, otherwise assign. -/
def metaStep (meta : List (String × String)) (line : String) : List (String × String) :=
  match firstColonSplit line.toList with
  | none => meta
  | some (k0, v0) =>
    let key := String.mk (trimChars k0)
    let val := String.mk (trimChars v0)
    if key ≠ "" && val ≠ "" then metaInsert meta key val else meta

/-- The line-parsing phase over a captured block body. -/
def parseMetaBlock (block : String) : List (String × String) :=
  (splitLines block).foldl metaStep []

/-- The whole metadata extractor: locate the block, then parse its
lines; a page with no block yields none. -/
def parseMeta (html : String) : Option (List (String × String)) :=
  (extractMetaBlock html).map parseMetaBlock

/-- Modelled from the spec: the per-line contract of section 4.4, stated
independently of the loop. A line contributes the pair of its trimmed
sides split at the first colon, and is skipped when it has no colon or
either side trims to empty. Used only to compare the code parser against
the spec wording of claim C4. -/
def specLineEntry (line : String) : Option (String × String) :=
  match firstColonSplit line.toList with
  | none => none
  | some (k0, v0) =>
    let key := String.mk (trimChars k0)
    let val := String.mk (trimChars v0)
    if key ≠ "" && val ≠ "" then some (key, val) else none

/-- Property access on the association-list view of the meta object. -/
def metaLookup (k : String) : List (String × String) → Option String
  | [] => none
  | (k0, v) :: rest => if k = k0 then some v else metaLookup k rest

/-- Last-occurrence-wins lookup over the listed entries, the duplicate
policy the spec states for the meta mapping. -/
def lastLookup (entries : List (String × String)) (k : String) : Option String :=
  metaLookup k entries.reverse

/- ── Subscriber directory client (send-newsletter.js lines 128 to 169) ── -/

/-- One response of the paginated directory query: a non-success
response, or a page of records together with the has_more flag that
drives the cursor continuation. Each record carries the optional email
title content extracted at lines 158 to 163. -/
inductive QueryResp where
  | svcErr
  | page (items : List (Option String)) (hasMore : Bool)
deriving DecidableEq

/-- The emails pushed from one page: exactly the records whose nested
email content is present. -/
def pageEmails (items : List (Option String)) : List String :=
  items.filterMap id

/-- The pagination loop with its accumulator: a non-success response
breaks out of the loop and the accumulated emails are returned; a page
appends its emails and continues exactly when has_more is set. An
exhausted response list also returns the accumulator. -/
def getAllSubscribersAux (acc : List String) : List QueryResp → List String
  | [] => acc
  | .svcErr :: _ => acc
  | .page items hasMore :: rest =>
    let acc2 := acc ++ pageEmails items
    if hasMore then getAllSubscribersAux acc2 rest else acc2

/-- Model of getAllSubscribers over the sequence of store responses. -/
def getAllSubscribers (responses : List QueryResp) : List String :=
  getAllSubscribersAux [] responses

/-- A response that is a page whose has_more flag keeps the loop going. -/
def isContinuingPage : QueryResp → Bool
  | .page _ true => true
  | _ => false

/-- The emails a response list would contribute if every page of it were
consumed: the successful-page accumulation of claim C5. -/
def collectedEmails (responses : List QueryResp) : List String :=
  responses.flatMap (fun r =>
    match r with
    | .page items _ => pageEmails items
    | .svcErr => [])

/- ── Dispatch loop (send-newsletter.js lines 82 to 120) ────────────── -/

/-- Outcome of one delivery attempt, as the handler observes it:
delivered is a success response (sendRes.ok); rejected is a non-success
response whose parsed body carries the optional message field of
line 109; thrown is an exception raised during the attempt and caught at
line 114, carrying its message. -/
inductive SendOutcome where
  | delivered
  | rejected (msg : Option String)
  | thrown (msg : String)
deriving DecidableEq

/-- The results accumulator of line 82, extended with two effect
counters: attempts counts the delivery-service calls of line 87 and
pauses counts the executions of sleep(1500) at line 113. -/
structure DispatchResult where
  sent : Nat
  failed : Nat
  errors : List (String × String)
  attempts : Nat
  pauses : Nat
deriving DecidableEq

/-- One loop iteration (lines 85 to 117): a success response increments
sent and sleeps; a non-success response increments failed, appends the
email with the message field or the fallback text, and sleeps; a thrown
exception is caught after the sleep was skipped, increments failed and
appends the email with the exception message. -/
def dispatchStep (r : DispatchResult) (email : String) (o : SendOutcome) : DispatchResult :=
  match o with
  | .delivered =>
    { r with sent := r.sent + 1, attempts := r.attempts + 1, pauses := r.pauses + 1 }
  | .rejected msg =>
    { r with failed := r.failed + 1,
             errors := r.errors ++ [(email, jsOrElse msg "Send failed")],
             attempts := r.attempts + 1, pauses := r.pauses + 1 }
  | .thrown msg =>
    { r with failed := r.failed + 1,
             errors := r.errors ++ [(email, msg)],
             attempts := r.attempts + 1 }

/-- The sequential loop over the recipients, with the outcome of the
attempt at absolute position i given by the outcome function. -/
def runDispatchAux (outcome : Nat → SendOutcome) : Nat → List String → DispatchResult → DispatchResult
  | _, [], r => r
  | i, e :: rest, r => runDispatchAux outcome (i + 1) rest (dispatchStep r e (outcome i))

/-- The fresh accumulator of line 82. -/
def emptyDispatch : DispatchResult := ⟨0, 0, [], 0, 0⟩

/-- One dispatch run over a recipient list. -/
def runDispatch (subs : List String) (outcome : Nat → SendOutcome) : DispatchResult :=
  runDispatchAux outcome 0 subs emptyDispatch

/-- Whether an outcome reaches the sleep call of line 113. -/
def isPausing : SendOutcome → Bool
  | .thrown _ => false
  | _ => true

/-- Number of positions j with i ≤ j < i + n whose outcome reaches the
sleep call. -/
def countPausing (outcome : Nat → SendOutcome) : Nat → Nat → Nat
  | _, 0 => 0
  | i, n + 1 => (if isPausing (outcome i) then 1 else 0) + countPausing outcome (i + 1) n

/- ── Send-newsletter handler (send-newsletter.js lines 32 to 125) ──── -/

/-- The request body and method of the send-newsletter call. -/
structure NewsReq where
  method : String
  slug : Option String
  secret : Option String

/-- The fetch of the rendered post page (line 51): a non-success
response, or the page markup. -/
inductive PageFetch where
  | fetchErr
  | fetched (html : String)

/-- Observable outcome of the send-newsletter handler: HTTP status, the
success flag and counters of the JSON body, the optional short-circuit
message, the optional error text, and the effect counters of the
dispatch loop. -/
structure NewsResult where
  status : Nat
  ok : Bool
  sent : Nat
  failed : Nat
  errors : List (String × String)
  message : Option String
  error : Option String
  attempts : Nat
  pauses : Nat
deriving DecidableEq

/-- Model of the send-newsletter handler. The environment secret, the
page fetch, the directory responses and the per-attempt outcomes are
inputs; the email body construction is not modelled (its unsubscribe
link is covered by unsubscribeUrl above). The top-level catch of
line 121 is outside this model: every effect here is data, not a thrown
error. -/
def sendNewsletterHandler (newsletterSecret : Option String) (req : NewsReq)
    (fetched_ : PageFetch) (dirResponses : List QueryResp)
    (outcome : Nat → SendOutcome) : NewsResult :=
  if req.method ≠ "POST" then
    ⟨405, false, 0, 0, [], none, some "Method not allowed", 0, 0⟩
  else if !jsTruthy req.secret || req.secret ≠ newsletterSecret then
    ⟨401, false, 0, 0, [], none, some "Unauthorized", 0, 0⟩
  else if !jsTruthy req.slug then
    ⟨400, false, 0, 0, [], none, some "slug is required", 0, 0⟩
  else
    match fetched_ with
    | .fetchErr => ⟨404, false, 0, 0, [], none, some "Post not found", 0, 0⟩
    | .fetched html =>
      match parseMeta html with
      | none => ⟨400, false, 0, 0, [], none, some "No BLOG_META found in post", 0, 0⟩
      | some _ =>
        let subscribers := getAllSubscribers dirResponses
        if subscribers.length = 0 then
          ⟨200, true, 0, 0, [], some "No active subscribers", none, 0, 0⟩
        else
          let r := runDispatch subscribers outcome
          ⟨200, true, r.sent, r.failed, r.errors, none, none, r.attempts, r.pauses⟩

/- ── Subscribe handler and rate limiter (src/api/subscribe.js) ─────── -/

/-- The rolling-window length in milliseconds (subscribe.js line 3). -/
def RATE_LIMIT_WINDOW : Nat := 60 * 1000

/-- The per-window request ceiling (subscribe.js line 4). -/
def RATE_LIMIT_MAX : Nat := 5

/-- One isRateLimited call (subscribe.js lines 6 to 15) for one caller:
given the current time and the optional stored (start, count) entry,
return whether the request is limited and the new entry. A missing or
expired entry resets the window at the current time with count one. -/
def rlStep (now : Nat) : Option (Nat × Nat) → Bool × (Nat × Nat)
  | none => (false, (now, 1))
  | some (start, count) =>
    if now - start > RATE_LIMIT_WINDOW then (false, (now, 1))
    else (decide (count + 1 > RATE_LIMIT_MAX), (start, count + 1))

/-- Run the limiter over a sequence of request times for one caller,
recording for each request its time, whether it was limited, and the
window start after the call. -/
def rlRun : Option (Nat × Nat) → List Nat → List (Nat × Bool × Nat)
  | _, [] => []
  | st, t :: ts =>
    let r := rlStep t st
    (t, r.1, r.2.1) :: rlRun (some r.2) ts

/-- Number of accepted (non-limited) requests recorded with the given
window start. -/
def countAccept (s : Nat) : List (Nat × Bool × Nat) → Nat
  | [] => 0
  | (_, limited, start) :: rest =>
    (if limited = false ∧ start = s then 1 else 0) + countAccept s rest

/-- Number of accepted requests whose time lies in the rolling window
[a, a + RATE_LIMIT_WINDOW]. -/
def countAcceptWin (a : Nat) : List (Nat × Bool × Nat) → Nat
  | [] => 0
  | (t, limited, _) :: rest =>
    (if limited = false ∧ a ≤ t ∧ t ≤ a + RATE_LIMIT_WINDOW then 1 else 0) + countAcceptWin a rest

/-- The origin allow-list (subscribe.js line 17). -/
def ALLOWED_ORIGINS : List String := ["https://mkyang.ai", "https://www.mkyang.ai"]

/-- The CSRF origin check of lines 25 to 28: blocked exactly when the
header is truthy and not on the allow-list. -/
def originBlocked : Option String → Bool
  | none => false
  | some o => o ≠ "" && !(ALLOWED_ORIGINS.contains o)

/-- The caller key of line 31: the first comma-separated segment of the
forwarding header, trimmed, with the fallback key unknown. -/
def callerIp (fwd : Option String) : String :=
  match fwd with
  | none => "unknown"
  | some h =>
    let first := jsTrim (String.mk ((splitOnChar ',' h.toList).headD []))
    if first = "" then "unknown" else first

/-- The subscribe request surface: method, origin header, forwarding
header, and the body email (absent or non-string modelled as none). -/
structure SubReq where
  method : String
  origin : Option String
  forwardedFor : Option String
  email : Option String

/-- The duplicate-check query response (lines 49 to 66): a non-success
response, or a success carrying the number of matching records. -/
inductive CheckResp where
  | svcErr
  | found (count : Nat)
deriving DecidableEq

/-- The insert response (lines 75 to 96). -/
inductive InsertResp where
  | success
  | failure
deriving DecidableEq

/-- Observable outcome of the subscribe handler: HTTP status, the ok
flag of the JSON body, whether the insert call was issued, and the email
content it wrote. -/
structure SubResult where
  status : Nat
  okFlag : Bool
  insertCalled : Bool
  insertedEmail : Option String
deriving DecidableEq

/-- Model of the subscribe handler (subscribe.js lines 19 to 109). The
process-wide rate-limit map is an input, read at the caller key; the
store responses are inputs. A successful duplicate check with a match
short-circuits as a silent success; a failed duplicate check falls
through to the insert. -/
def subscribeHandler (now : Nat) (rateLimitMap : String → Option (Nat × Nat)) (req : SubReq)
    (check : CheckResp) (insert : InsertResp) : SubResult :=
  if req.method ≠ "POST" then ⟨405, false, false, none⟩
  else if originBlocked req.origin then ⟨403, false, false, none⟩
  else if (rlStep now (rateLimitMap (callerIp req.forwardedFor))).1 then ⟨429, false, false, none⟩
  else
    match req.email with
    | none => ⟨400, false, false, none⟩
    | some raw =>
      if raw = "" then ⟨400, false, false, none⟩
      else
        let email := normalizeEmail raw
        if !validEmail email then ⟨400, false, false, none⟩
        else
          match check with
          | .found (_ + 1) => ⟨200, true, false, none⟩
          | _ =>
            match insert with
            | .success => ⟨200, true, true, some email⟩
            | .failure => ⟨500, false, true, some email⟩

/- ── Dispatch-loop lemmas ──────────────────────────────────────────── -/

/-- A run segment whose attempts all succeed adds its length to sent,
attempts and pauses and leaves failed and the error list unchanged. -/
theorem dispatch_all_delivered (outcome : Nat → SendOutcome) :
    ∀ (l : List String) (i : Nat) (r : DispatchResult),
      (∀ j, j < l.length → outcome (i + j) = SendOutcome.delivered) →
      runDispatchAux outcome i l r =
        ⟨r.sent + l.length, r.failed, r.errors, r.attempts + l.length, r.pauses + l.length⟩ := by
  intro l
  induction l with
  | nil => intro i r h; simp [runDispatchAux]
  | cons e rest ih =>
    intro i r h
    have h0 : outcome i = SendOutcome.delivered := by
      have := h 0 (by simp); simpa using this
    have hrest : ∀ j, j < rest.length → outcome ((i + 1) + j) = SendOutcome.delivered := by
      intro j hj
      have := h (j + 1) (by simpa using Nat.succ_lt_succ hj)
      have e2 : i + (j + 1) = (i + 1) + j := by omega
      rwa [e2] at this
    rw [runDispatchAux, h0]
    rw [ih (i + 1) (dispatchStep r e SendOutcome.delivered) hrest]
    simp [dispatchStep]
    refine ⟨by omega, by omega, by omega⟩

/-- A run segment with exactly one service-reported failure at position
k and successes everywhere else: sent grows by length minus one, failed
by one, the error list by the single entry for the failing address, and
attempts and pauses by the full length. -/
theorem dispatch_one_rejected (outcome : Nat → SendOutcome) (m : Option String) :
    ∀ (l : List String) (i : Nat) (r : DispatchResult) (k : Nat),
      k < l.length →
      outcome (i + k) = SendOutcome.rejected m →
      (∀ j, j < l.length → j ≠ k → outcome (i + j) = SendOutcome.delivered) →
      runDispatchAux outcome i l r =
        ⟨r.sent + (l.length - 1), r.failed + 1,
         r.errors ++ [(l.getD k "", jsOrElse m "Send failed")],
         r.attempts + l.length, r.pauses + l.length⟩ := by
  intro l
  induction l with
  | nil => intro i r k hk _ _; simp at hk
  | cons e rest ih =>
    intro i r k hk hrej hdel
    match k with
    | 0 =>
      have h0 : outcome i = SendOutcome.rejected m := by simpa using hrej
      have hrest : ∀ j, j < rest.length → outcome ((i + 1) + j) = SendOutcome.delivered := by
        intro j hj
        have := hdel (j + 1) (by simpa using Nat.succ_lt_succ hj) (by omega)
        have e2 : i + (j + 1) = (i + 1) + j := by omega
        rwa [e2] at this
      rw [runDispatchAux, h0]
      rw [dispatch_all_delivered outcome rest (i + 1) _ hrest]
      simp [dispatchStep]
      omega
    | k' + 1 =>
      have h0 : outcome i = SendOutcome.delivered := by
        have := hdel 0 (by simp) (by omega)
        simpa using this
      have hk2 : k' < rest.length := by simpa using Nat.lt_of_succ_lt_succ hk
      have hrej2 : outcome ((i + 1) + k') = SendOutcome.rejected m := by
        have e2 : i + (k' + 1) = (i + 1) + k' := by omega
        rwa [e2] at hrej
      have hdel2 : ∀ j, j < rest.length → j ≠ k' → outcome ((i + 1) + j) = SendOutcome.delivered := by
        intro j hj hne
        have := hdel (j + 1) (by simpa using Nat.succ_lt_succ hj) (by omega)
        have e2 : i + (j + 1) = (i + 1) + j := by omega
        rwa [e2] at this
      rw [runDispatchAux, h0]
      rw [ih (i + 1) (dispatchStep r e SendOutcome.delivered) k' hk2 hrej2 hdel2]
      simp [dispatchStep]
      omega

/-- Bookkeeping of any run segment: sent plus failed grows by the
segment length, the error list grows in lockstep with failed, pauses
grow by the number of pausing outcomes, attempts by the length. -/
theorem dispatch_counts (outcome : Nat → SendOutcome) :
    ∀ (l : List String) (i : Nat) (r : DispatchResult),
      (runDispatchAux outcome i l r).sent + (runDispatchAux outcome i l r).failed
          = r.sent + r.failed + l.length ∧
      (runDispatchAux outcome i l r).errors.length + r.failed
          = r.errors.length + (runDispatchAux outcome i l r).failed ∧
      (runDispatchAux outcome i l r).pauses = r.pauses + countPausing outcome i l.length ∧
      (runDispatchAux outcome i l r).attempts = r.attempts + l.length := by
  intro l
  induction l with
  | nil => intro i r; simp [runDispatchAux, countPausing]
  | cons e rest ih =>
    intro i r
    rw [runDispatchAux]
    have := ih (i + 1) (dispatchStep r e (outcome i))
    rcases this with ⟨h1, h2, h3, h4⟩
    cases ho : outcome i <;>
      simp [dispatchStep, ho, countPausing, isPausing] at h1 h2 h3 h4 ⊢ <;>
      omega

/- ── Claim theorems: dispatch loop ─────────────────────────────────── -/

/-- Claim C1: for N active addresses where the delivery call for exactly
one position k reports failure and all others succeed, the loop does not
abort early: it issues N attempts and returns sent = N - 1, failed = 1,
and an error list with exactly the one entry for the failing address and
its recorded message. -/
theorem C1_partial_failure_isolation (subs : List String) (outcome : Nat → SendOutcome)
    (k : Nat) (m : Option String)
    (hk : k < subs.length)
    (hrej : outcome k = SendOutcome.rejected m)
    (hdel : ∀ i, i < subs.length → i ≠ k → outcome i = SendOutcome.delivered) :
    (runDispatch subs outcome).attempts = subs.length ∧
    (runDispatch subs outcome).sent = subs.length - 1 ∧
    (runDispatch subs outcome).failed = 1 ∧
    (runDispatch subs outcome).errors = [(subs.getD k "", jsOrElse m "Send failed")] := by
  have h := dispatch_one_rejected outcome m subs 0 emptyDispatch k hk
    (by simpa using hrej) (by intro j hj hne; simpa using hdel j hj hne)
  rw [runDispatch, h]
  simp [emptyDispatch]

/-- Concrete three-recipient run with the middle attempt rejected, used
by the C1 witness. -/
def cearlSubs : List String := ["a@x.com", "b@x.com", "c@x.com"]

/-- The outcome function of the C1 witness run. -/
def cearlOutcome : Nat → SendOutcome :=
  fun i => if i = 1 then SendOutcome.rejected (some "bounced") else SendOutcome.delivered

/-- Witness for C1 at a concrete three-recipient run. -/
theorem C1_witness :
    (runDispatch cearlSubs cearlOutcome).attempts = 3 ∧
    (runDispatch cearlSubs cearlOutcome).sent = 2 ∧
    (runDispatch cearlSubs cearlOutcome).failed = 1 ∧
    (runDispatch cearlSubs cearlOutcome).errors = [("b@x.com", "bounced")] := by
  have h := C1_partial_failure_isolation cearlSubs cearlOutcome 1 (some "bounced")
    (by decide) (by decide) ?_
  · simpa [cearlSubs, cearlOutcome, jsOrElse] using h
  · intro i hi hne
    have hi3 : i < 3 := by simpa [cearlSubs] using hi
    interval_cases i
    · rfl
    · exact absurd rfl hne
    · rfl

/-- Claim C3 fails on the code: an attempt that ends in a thrown
exception is a failed attempt after which the loop does not pause (the
sleep sits inside the try block, before the catch). One recipient whose
attempt throws yields failed = 1 with zero pauses. -/
theorem C3_counterexample :
    (runDispatch ["a@b.com"] (fun _ => SendOutcome.thrown "network error")).failed = 1 ∧
    (runDispatch ["a@b.com"] (fun _ => SendOutcome.thrown "network error")).pauses = 0 := by
  decide

/-- Claim C3 as amended: the loop pauses exactly after every attempt
that completes with a service response, success or reported failure; an
attempt aborted by a thrown exception is recorded as failed without a
pause. Every recipient costs exactly one attempt. -/
theorem C3_pause_accounting (subs : List String) (outcome : Nat → SendOutcome) :
    (runDispatch subs outcome).pauses = countPausing outcome 0 subs.length ∧
    (runDispatch subs outcome).attempts = subs.length := by
  have h := dispatch_counts outcome subs 0 emptyDispatch
  simp [emptyDispatch] at h
  exact ⟨by rw [runDispatch]; exact h.2.2.1, by rw [runDispatch]; exact h.2.2.2⟩

/-- Claim C9: at every iteration of the dispatch loop, the processed
count equals sent plus failed and the error list has exactly failed
entries; at the end this gives sent + failed = N. The state after i
iterations is the run over the length-i prefix. -/
theorem C9_count_invariant (subs : List String) (outcome : Nat → SendOutcome) (i : Nat)
    (hi : i ≤ subs.length) :
    (runDispatch (subs.take i) outcome).sent + (runDispatch (subs.take i) outcome).failed = i ∧
    (runDispatch (subs.take i) outcome).errors.length = (runDispatch (subs.take i) outcome).failed := by
  have h := dispatch_counts outcome (subs.take i) 0 emptyDispatch
  simp [runDispatch, emptyDispatch] at h ⊢
  refine ⟨?_, ?_⟩
  · rw [h.1]
    omega
  · exact h.2.1

/-- Witness for C9 at a concrete two-recipient run, after the first
iteration. -/
theorem C9_witness :
    (runDispatch (["a@x.com", "b@x.com"].take 1) (fun _ => SendOutcome.delivered)).sent +
      (runDispatch (["a@x.com", "b@x.com"].take 1) (fun _ => SendOutcome.delivered)).failed = 1 ∧
    (runDispatch (["a@x.com", "b@x.com"].take 1) (fun _ => SendOutcome.delivered)).errors.length =
      (runDispatch (["a@x.com", "b@x.com"].take 1) (fun _ => SendOutcome.delivered)).failed :=
  C9_count_invariant ["a@x.com", "b@x.com"] (fun _ => SendOutcome.delivered) 1 (by decide)

/- ── Claim theorems: directory pagination ──────────────────────────── -/

/-- Hitting a non-success response after consuming continuing pages
returns exactly the accumulator extended by those pages. -/
theorem getAllSubscribersAux_break :
    ∀ (good : List QueryResp) (acc : List String) (rest : List QueryResp),
      (∀ p ∈ good, isContinuingPage p = true) →
      getAllSubscribersAux acc (good ++ QueryResp.svcErr :: rest) = acc ++ collectedEmails good := by
  intro good
  induction good with
  | nil => intro acc rest _; simp [getAllSubscribersAux, collectedEmails]
  | cons p good ih =>
    intro acc rest hcont
    have hp : isContinuingPage p = true := hcont p (by simp)
    cases p with
    | svcErr => simp [isContinuingPage] at hp
    | page items hasMore =>
      cases hasMore with
      | false => simp [isContinuingPage] at hp
      | true =>
        have := ih (acc ++ pageEmails items) rest (fun q hq => hcont q (by simp [hq]))
        simp [getAllSubscribersAux, this, collectedEmails]

/-- Claim C5: when some directory query after the first returns a
non-success response, pagination stops there and the addresses
accumulated from the successful pages are returned; the client returns
normally rather than failing the dispatch. -/
theorem C5_pagination_cut_short (good rest : List QueryResp)
    (_hne : good ≠ [])
    (hcont : ∀ p ∈ good, isContinuingPage p = true) :
    getAllSubscribers (good ++ QueryResp.svcErr :: rest) = collectedEmails good := by
  rw [getAllSubscribers, getAllSubscribersAux_break good [] rest hcont]
  simp

/-- Witness for C5 at a one-page trace followed by a failure. -/
theorem C5_witness :
    getAllSubscribers ([QueryResp.page [some "a@x.com", none] true] ++
        QueryResp.svcErr :: []) =
      collectedEmails [QueryResp.page [some "a@x.com", none] true] :=
  C5_pagination_cut_short [QueryResp.page [some "a@x.com", none] true] []
    (by decide) (by decide)

/- ── Claim theorems: empty subscriber set ──────────────────────────── -/

/-- Claim C6: a valid authorized request whose resolved active-subscriber
set is empty returns a success result with sent = 0, no error entries,
the explanatory message, and zero delivery-service calls. -/
theorem C6_empty_subscriber_set (sec sl : String) (req : NewsReq) (html : String)
    (dir : List QueryResp) (outcome : Nat → SendOutcome)
    (hm : req.method = "POST")
    (hs : req.secret = some sec) (hsec : sec ≠ "")
    (hslug : req.slug = some sl) (hsl : sl ≠ "")
    (hmeta : (parseMeta html).isSome = true)
    (hempty : getAllSubscribers dir = []) :
    sendNewsletterHandler (some sec) req (PageFetch.fetched html) dir outcome =
      ⟨200, true, 0, 0, [], some "No active subscribers", none, 0, 0⟩ := by
  obtain ⟨mv, hmv⟩ := Option.isSome_iff_exists.mp hmeta
  simp [sendNewsletterHandler, hm, hs, hsec, hslug, hsl, jsTruthy, hmv, hempty]

/-- Concrete page markup with a metadata block, shared by the C4 and C6
witnesses. Its block exercises a duplicate key, a line without a colon,
an empty key and an empty value. -/
def sampleHtml : String :=
  "<p>x</p><!--\nBLOG_META\ntitle: Hello\ntitle:  World\nno colon line\n: nokey\nkey:\ndate: 2025-01-01\nEND_META\n-->tail"

/-- The block body the sample markup captures. -/
def sampleBlock : String :=
  "title: Hello\ntitle:  World\nno colon line\n: nokey\nkey:\ndate: 2025-01-01"

/-- Witness for C6 at a concrete authorized request with an empty
directory. -/
theorem C6_witness :
    sendNewsletterHandler (some "sek") ⟨"POST", some "post.html", some "sek"⟩
        (PageFetch.fetched sampleHtml) [] (fun _ => SendOutcome.delivered) =
      ⟨200, true, 0, 0, [], some "No active subscribers", none, 0, 0⟩ :=
  C6_empty_subscriber_set "sek" "post.html" ⟨"POST", some "post.html", some "sek"⟩ sampleHtml []
    (fun _ => SendOutcome.delivered) rfl rfl (by decide) rfl (by decide) (by decide) (by decide)

/- ── Claim theorems: unsubscribe on an unknown address ─────────────── -/

/-- Claim C8: an unsubscribe request with a valid (and, when a secret is
configured, correctly tokened) email whose directory query succeeds with
no matching record yields the 200 not-subscribed page and issues no
status-update write. -/
theorem C8_not_subscribed_no_write (unsubSecret : Option String) (raw : String)
    (tokenQ : Option String) (update : UpdateResp)
    (hraw : raw ≠ "")
    (hval : validEmail (normalizeEmail raw) = true)
    (hver : verifyToken unsubSecret (normalizeEmail raw) tokenQ = true) :
    unsubscribeHandler unsubSecret (some raw) tokenQ (SearchResp.found []) update =
      ⟨200, "This email is not subscribed.", false, false⟩ := by
  simp [unsubscribeHandler, hraw, hval, hver, unsubscribeAfterAuth]

/-- Witness for C8 with no configured secret and a concrete address. -/
theorem C8_witness :
    unsubscribeHandler none (some "A@B.com") none (SearchResp.found []) UpdateResp.success =
      ⟨200, "This email is not subscribed.", false, false⟩ :=
  C8_not_subscribed_no_write none "A@B.com" none UpdateResp.success
    (by decide) (by decide) (by decide)

/- ── Claim theorems: duplicate check is best-effort ────────────────── -/

/-- Claim C10: when the duplicate-check query itself returns a
non-success response, the subscribe handler neither fails nor reports a
duplicate; it issues the insert for the normalized address anyway and
returns success when the insert succeeds. -/
theorem C10_duplicate_check_best_effort (now : Nat) (mp : String → Option (Nat × Nat))
    (req : SubReq) (raw : String)
    (hm : req.method = "POST")
    (ho : originBlocked req.origin = false)
    (hrl : (rlStep now (mp (callerIp req.forwardedFor))).1 = false)
    (he : req.email = some raw) (hraw : raw ≠ "")
    (hval : validEmail (normalizeEmail raw) = true) :
    subscribeHandler now mp req CheckResp.svcErr InsertResp.success =
      ⟨200, true, true, some (normalizeEmail raw)⟩ := by
  simp [subscribeHandler, hm, ho, hrl, he, hraw, hval]

/-- Witness for C10 at a concrete request; the inserted address is the
normalized form of the supplied one. -/
theorem C10_witness :
    subscribeHandler 0 (fun _ => none) ⟨"POST", none, none, some "A@B.com "⟩
        CheckResp.svcErr InsertResp.success = ⟨200, true, true, some "a@b.com"⟩ :=
  (C10_duplicate_check_best_effort 0 (fun _ => none)
      ⟨"POST", none, none, some "A@B.com "⟩ "A@B.com "
      rfl (by decide) (by decide) rfl (by decide) (by decide)).trans (by decide)

/- ── Metadata-parser lemmas ────────────────────────────────────────── -/

/-- One line-loop step is the insertion of the line entry the spec
assigns to that line, when any. -/
theorem metaStep_eq (m : List (String × String)) (line : String) :
    metaStep m line =
      match specLineEntry line with
      | none => m
      | some (k, v) => metaInsert m k v := by
  rw [metaStep, specLineEntry]
  cases firstColonSplit line.toList with
  | none => rfl
  | some p =>
    cases p with
    | mk k0 v0 =>
      by_cases h : String.mk (trimChars k0) ≠ "" ∧ String.mk (trimChars v0) ≠ "" <;>
        simp [h]

/-- In-place assignment updates exactly the assigned key. -/
theorem lookup_metaInsert (k v : String) :
    ∀ (m : List (String × String)) (q : String),
      metaLookup q (metaInsert m k v) = if q = k then some v else metaLookup q m := by
  intro m
  induction m with
  | nil =>
    intro q
    by_cases h : q = k <;> simp [metaInsert, metaLookup, h]
  | cons e t ih =>
    intro q
    cases e with
    | mk k0 v0 =>
      by_cases h0 : k0 = k
      · subst h0
        by_cases hq : q = k0 <;> simp [metaInsert, metaLookup, hq]
      · by_cases hq : q = k0
        · have hqk : ¬ q = k := fun hc => h0 (hq.symm.trans hc)
          simp [metaInsert, metaLookup, h0, hq, hqk]
        · simp [metaInsert, metaLookup, h0, hq, ih q]

/-- Lookup distributes over appended entry lists, first list first. -/
theorem lookup_append (q : String) :
    ∀ (l1 l2 : List (String × String)),
      metaLookup q (l1 ++ l2) = (metaLookup q l1).or (metaLookup q l2) := by
  intro l1
  induction l1 with
  | nil => intro l2; simp [metaLookup]
  | cons e t ih =>
    intro l2
    cases e with
    | mk k0 v0 =>
      by_cases h : q = k0 <;> simp [metaLookup, h, ih l2]

/-- The line-loop fold realizes last-occurrence-wins lookup over the
valid line entries, on top of the starting mapping. -/
theorem foldl_metaStep_lookup (q : String) :
    ∀ (lines : List String) (m : List (String × String)),
      metaLookup q (lines.foldl metaStep m) =
        (lastLookup (lines.filterMap specLineEntry) q).or (metaLookup q m) := by
  intro lines
  induction lines with
  | nil => intro m; simp [lastLookup, metaLookup]
  | cons line rest ih =>
    intro m
    rw [List.foldl_cons, ih (metaStep m line), metaStep_eq]
    cases hsl : specLineEntry line with
    | none => simp [List.filterMap_cons, hsl]
    | some p =>
      cases p with
      | mk k v =>
        simp only [List.filterMap_cons, hsl, lastLookup, List.reverse_cons]
        rw [lookup_append, lookup_metaInsert, Option.or_assoc]
        by_cases h : q = k <;> simp [metaLookup, h]

/-- Claim C4: on markup containing a delimited metadata block, the
parser realizes exactly the per-line contract: each block line is split
at its first colon with both sides trimmed, lines without a colon and
entries with an empty trimmed key or value are skipped, and on duplicate
keys the last occurrence wins; markup with no block yields the absent
value rather than an error. -/
theorem C4_meta_block_parsing (html block : String)
    (hb : extractMetaBlock html = some block) :
    parseMeta html = some (parseMetaBlock block) ∧
    (∀ q, metaLookup q (parseMetaBlock block) =
        lastLookup ((splitLines block).filterMap specLineEntry) q) ∧
    (∀ h2 : String, extractMetaBlock h2 = none → parseMeta h2 = none) := by
  refine ⟨by simp [parseMeta, hb], ?_, fun h2 hn => by simp [parseMeta, hn]⟩
  intro q
  rw [parseMetaBlock, foldl_metaStep_lookup]
  simp [metaLookup]

/-- Witness for C4 at the sample markup: the block is located, and the
duplicate title resolves to its last occurrence. -/
theorem C4_witness :
    parseMeta sampleHtml = some (parseMetaBlock sampleBlock) ∧
    metaLookup "title" (parseMetaBlock sampleBlock) =
      lastLookup ((splitLines sampleBlock).filterMap specLineEntry) "title" ∧
    metaLookup "title" (parseMetaBlock sampleBlock) = some "World" := by
  have h := C4_meta_block_parsing sampleHtml sampleBlock (by decide)
  exact ⟨h.1, h.2.1 "title", by decide⟩

/- ── Rate-limiter lemmas ───────────────────────────────────────────── -/

/-- The ceiling constant evaluates to five. -/
theorem RATE_LIMIT_MAX_eq : RATE_LIMIT_MAX = 5 := rfl

/-- The window constant evaluates to sixty thousand milliseconds. -/
theorem RATE_LIMIT_WINDOW_eq : RATE_LIMIT_WINDOW = 60000 := by norm_num [RATE_LIMIT_WINDOW]

/-- Epoch bound: starting from a stored entry (s0, c0) and
nondecreasing request times no earlier than s0, the accepted requests
recorded with window start s0 number at most the remaining allowance of
that epoch, later epochs accept at most the ceiling each, and no accept
is ever recorded with a start before s0. -/
theorem rl_epoch_bound :
    ∀ (ts : List Nat) (s0 c0 : Nat), List.Sorted (· ≤ ·) ts → (∀ t ∈ ts, s0 ≤ t) → ∀ s,
      countAccept s (rlRun (some (s0, c0)) ts) ≤
        (if s = s0 then RATE_LIMIT_MAX - min c0 RATE_LIMIT_MAX
         else if s0 < s then RATE_LIMIT_MAX else 0) := by
  intro ts
  induction ts with
  | nil =>
    intro s0 c0 _ _ s
    simp [rlRun, countAccept]
  | cons t ts ih =>
    intro s0 c0 hsort hge s
    have hpair := List.sorted_cons.mp hsort
    have hts : List.Sorted (· ≤ ·) ts := hpair.2
    have htall : ∀ u ∈ ts, t ≤ u := hpair.1
    have hs0t : s0 ≤ t := hge t (by simp)
    by_cases hexp : t - s0 > RATE_LIMIT_WINDOW
    · have hlt : s0 < t := by
        rw [RATE_LIMIT_WINDOW_eq] at hexp
        omega
      have hstep : rlRun (some (s0, c0)) (t :: ts) = (t, false, t) :: rlRun (some (t, 1)) ts := by
        simp [rlRun, rlStep, hexp]
      rw [hstep, countAccept]
      have hbound := ih t 1 hts htall s
      rw [RATE_LIMIT_MAX_eq] at hbound ⊢
      by_cases hst : s = t
      · rw [if_pos (show (false = false ∧ t = s) from ⟨rfl, hst.symm⟩)]
        rw [if_pos hst] at hbound
        have hne : ¬ s = s0 := by omega
        rw [if_neg hne, if_pos (show s0 < s by omega)]
        omega
      · rw [if_neg (fun hc => hst hc.2.symm)]
        rw [if_neg hst] at hbound
        by_cases hts2 : t < s
        · rw [if_pos hts2] at hbound
          have hne : ¬ s = s0 := by omega
          rw [if_neg hne, if_pos (show s0 < s by omega)]
          omega
        · rw [if_neg hts2] at hbound
          omega
    · have hstep : rlRun (some (s0, c0)) (t :: ts) =
          (t, decide (c0 + 1 > RATE_LIMIT_MAX), s0) :: rlRun (some (s0, c0 + 1)) ts := by
        simp [rlRun, rlStep, hexp]
      rw [hstep, countAccept]
      have hbound := ih s0 (c0 + 1) hts (fun u hu => le_trans hs0t (htall u hu)) s
      rw [RATE_LIMIT_MAX_eq] at hbound ⊢
      by_cases hss : s = s0
      · subst hss
        rw [if_pos rfl] at hbound
        rw [if_pos rfl]
        by_cases hc : c0 + 1 > RATE_LIMIT_MAX <;> rw [RATE_LIMIT_MAX_eq] at hc
        · rw [if_neg (fun hcon => by
            have h1 := hcon.1
            simp only [decide_eq_false_iff_not] at h1
            exact h1 hc)]
          omega
        · rw [if_pos (show (decide (c0 + 1 > 5) = false ∧ s = s) from
            ⟨by simp only [decide_eq_false_iff_not]; exact hc, rfl⟩)]
          omega
      · rw [if_neg (fun hc => hss hc.2.symm)]
        rw [if_neg hss] at hbound
        rw [if_neg hss]
        omega

/-- From the fresh limiter state, every window epoch accepts at most the
ceiling. -/
theorem rl_window_bound (ts : List Nat) (hsort : List.Sorted (· ≤ ·) ts) :
    ∀ s, countAccept s (rlRun none ts) ≤ RATE_LIMIT_MAX := by
  intro s
  cases ts with
  | nil => simp [rlRun, countAccept]
  | cons t ts =>
    have hpair := List.sorted_cons.mp hsort
    have hstep : rlRun none (t :: ts) = (t, false, t) :: rlRun (some (t, 1)) ts := by
      simp [rlRun, rlStep]
    rw [hstep, countAccept]
    have hbound := rl_epoch_bound ts t 1 hpair.2 hpair.1 s
    have hmin1 : min 1 RATE_LIMIT_MAX = 1 := by norm_num [RATE_LIMIT_MAX]
    rw [hmin1] at hbound
    by_cases hst : s = t
    · rw [if_pos (show (false = false ∧ t = s) from ⟨rfl, hst.symm⟩)]
      rw [if_pos hst] at hbound
      norm_num [RATE_LIMIT_MAX] at hbound ⊢
      omega
    · rw [if_neg (fun hc => hst hc.2.symm)]
      rw [if_neg hst] at hbound
      by_cases hts2 : t < s
      · rw [if_pos hts2] at hbound; omega
      · rw [if_neg hts2] at hbound; omega

/-- A burst that straddles the window-expiry boundary: five requests at
the end of one epoch followed immediately by five in the next. -/
def burstTimes : List Nat :=
  [0, 57000, 58000, 59000, 60000, 61000, 62000, 63000, 64000, 65000]

/-- Claim C7 fails on the code: the limiter window is fixed at the first
request of an epoch, not rolling, so the burst trace has nine accepted
requests inside the single rolling 60-second window starting at 57000
— more than the ceiling of five the claim asserts for every rolling
window. -/
theorem C7_counterexample :
    RATE_LIMIT_MAX < countAcceptWin 57000 (rlRun none burstTimes) := by decide

/-- Claim C7 as amended: for nondecreasing request times, at most five
requests from a caller are accepted within each limiter epoch (the
fixed window opened at the epoch start and reset only when more than 60
seconds have elapsed since it); and a request the limiter rejects is
answered with the rate-limited 429 status. Across an epoch boundary a
rolling 60-second span can see up to twice the ceiling. -/
theorem C7_per_epoch_rate_limit (ts : List Nat) (hsort : List.Sorted (· ≤ ·) ts) :
    (∀ s, countAccept s (rlRun none ts) ≤ RATE_LIMIT_MAX) ∧
    (∀ (now : Nat) (mp : String → Option (Nat × Nat)) (req : SubReq)
        (check : CheckResp) (ins : InsertResp),
        req.method = "POST" → originBlocked req.origin = false →
        (rlStep now (mp (callerIp req.forwardedFor))).1 = true →
        (subscribeHandler now mp req check ins).status = 429) := by
  refine ⟨rl_window_bound ts hsort, ?_⟩
  intro now mp req check ins hm ho hrl
  simp [subscribeHandler, hm, ho, hrl]

/-- Witness for C7 at a concrete two-request trace and a concrete
over-limit request. -/
theorem C7_witness :
    countAccept 0 (rlRun none [0, 1000]) ≤ RATE_LIMIT_MAX ∧
    (subscribeHandler 1000 (fun _ => some (0, 5)) ⟨"POST", none, none, some "a@b.com"⟩
        CheckResp.svcErr InsertResp.success).status = 429 := by
  have h := C7_per_epoch_rate_limit [0, 1000] (by decide)
  exact ⟨h.1 0,
    h.2 1000 (fun _ => some (0, 5)) ⟨"POST", none, none, some "a@b.com"⟩
      CheckResp.svcErr InsertResp.success rfl (by decide) (by decide)⟩

/- ── Token-length lemmas ───────────────────────────────────────────── -/

/-- A string built from an explicit character list lists exactly those
characters. -/
theorem toList_mk (l : List Char) : (String.mk l).toList = l := rfl

/-- Serializing the final state yields four bytes per word. -/
theorem flatMapWords_length :
    ∀ (l : List Nat),
      (l.flatMap (fun wd => [(wd >>> 24) % 256, (wd >>> 16) % 256, (wd >>> 8) % 256, wd % 256])).length
        = 4 * l.length := by
  intro l
  induction l with
  | nil => simp
  | cons wd l ih => simp [ih]; omega

/-- A SHA-256 digest always has 32 bytes. -/
theorem sha256Bytes_length (msg : List Nat) : (sha256Bytes msg).length = 32 := by
  rw [sha256Bytes, flatMapWords_length]
  rfl

/-- Hex rendering yields two characters per byte. -/
theorem hexChars_length :
    ∀ (bs : List Nat), (bs.flatMap (fun b => [hexDigit (b / 16), hexDigit (b % 16)])).length
      = 2 * bs.length := by
  intro bs
  induction bs with
  | nil => simp
  | cons b bs ih => simp [ih]; omega

/-- A hex HMAC digest always has 64 characters. -/
theorem hmacSha256Hex_length (key msg : String) : (hmacSha256Hex key msg).toList.length = 64 := by
  rw [hmacSha256Hex, bytesToHex, toList_mk, hexChars_length, sha256Bytes_length]

/-- An issued token always has 16 characters. -/
theorem issueToken_length (sec email : String) : (issueToken sec email).toList.length = 16 := by
  rw [issueToken, strTake, toList_mk, List.length_take, hmacSha256Hex_length]
  decide

/-- An issued token is never the empty string, so the truthiness guard
of the verifier never rejects a genuine token for emptiness. -/
theorem issueToken_ne_empty (sec email : String) : issueToken sec email ≠ "" := by
  intro hcon
  have hlen := issueToken_length sec email
  rw [hcon] at hlen
  exact absurd hlen (by decide)

/- ── Claim theorems: unsubscribe-token scheme ──────────────────────── -/

/-- Claim C2 as amended: the issued token is the first 16 hex characters
of the keyed hash of the address exactly as stored (the sender does not
lowercase or trim it); the verifier recomputes the token over the
lowercased trimmed supplied address and accepts exactly on string
equality; with no configured secret verification is skipped entirely;
and consequently the sender-embedded token is accepted for every stored
address that is already lowercased and trimmed. -/
theorem C2_token_scheme (sec email : String) (tok : Option String) :
    (sec ≠ "" → (verifyToken (some sec) email tok = true ↔ tok = some (issueToken sec email))) ∧
    verifyToken none email tok = true ∧
    (sec ≠ "" → normalizeEmail email = email →
      (unsubscribeUrl (some sec) email).token = some (issueToken sec email) ∧
      verifyToken (some sec) (normalizeEmail email) ((unsubscribeUrl (some sec) email).token)
        = true) := by
  refine ⟨?_, by simp [verifyToken], ?_⟩
  · intro hsec
    cases tok with
    | none => simp [verifyToken, hsec]
    | some t =>
      simp only [verifyToken, if_neg hsec, Bool.and_eq_true, decide_eq_true_eq, ne_eq,
        Option.some.injEq]
      constructor
      · intro hp
        exact hp.2
      · intro heq
        exact ⟨by rw [heq]; exact issueToken_ne_empty sec email, heq⟩
  · intro hsec hnorm
    refine ⟨by simp [unsubscribeUrl, hsec], ?_⟩
    rw [hnorm]
    simp [unsubscribeUrl, hsec, verifyToken, issueToken_ne_empty sec email]

/-- Witness for C2 at a concrete secret and an already-normalized
address: the sender-embedded token passes verification. -/
theorem C2_witness :
    verifyToken (some "s") (normalizeEmail "a@b.com")
      ((unsubscribeUrl (some "s") "a@b.com").token) = true :=
  ((C2_token_scheme "s" "a@b.com" none).2.2 (by decide) (by decide)).2

set_option maxRecDepth 10000 in
/-- Claim C2 fails on the code as stated: the sender hashes the stored
address as-is, not its lowercased trimmed form, so for a stored address
with an uppercase letter the issued token differs from the keyed hash of
the lowercased trimmed address, and the unsubscribe handler rejects the
sender-embedded token with a 403. -/
theorem C2_counterexample :
    issueToken "s" "A@b.com" ≠ issueToken "s" (normalizeEmail "A@b.com") ∧
    (unsubscribeHandler (some "s") (some "A@b.com")
        ((unsubscribeUrl (some "s") "A@b.com").token)
        (SearchResp.found ["rec1"]) UpdateResp.success).status = 403 := by
  refine ⟨by decide, by decide⟩
